import Mathlib

/-!
# Verification of `real_state_manager` value objects and transaction container

Shallow embedding of `src/seedwork/domain/value_objects/period.py`,
`src/seedwork/domain/value_objects/money.py` and `src/config/container.py`,
together with theorems settling the specification's claims against it.

Machine integers of the source are unbounded Python `int`, embedded as `Int`
(or `Nat` where the source value is a count); monetary amounts are embedded
as `Rat`; fallible constructors and calls (Python `assert` / raised
exceptions) return `Option` or `Except`.
-/

namespace RealStateManager

/-! ## Python string primitives used by `Period`

Strings are embedded as `List Char`.  `natToChars`/`intToChars` mirror
Python `str` on integers, `parseNat`/`parseInt` mirror Python `int(s)` on
the optionally `-`-signed digit strings that `str` produces (any other
input raises `ValueError`, modelled as `none`), and `splitOnChar` mirrors
`str.split` with a one-character separator. -/

/-- The character Python `str` prints for a single decimal digit `d ≤ 9`. -/
def pyDigitChar (d : Nat) : Char := Char.ofNat (48 + d)

/-- Numeric value of a decimal digit character. -/
def pyCharDigit (c : Char) : Nat := c.toNat - 48

/-- Is `c` one of `'0'`..`'9'`? -/
def isDigitChar (c : Char) : Bool := decide (48 ≤ c.toNat) && decide (c.toNat ≤ 57)

/-- Decimal digits of `n`, most significant first; `fuel` bounds the
recursion (`natToChars` passes `n + 1`, which always suffices). -/
def natToCharsCore : Nat → Nat → List Char
  | 0, _ => []
  | fuel + 1, n =>
    if n < 10 then [pyDigitChar n]
    else natToCharsCore fuel (n / 10) ++ [pyDigitChar (n % 10)]

/-- Python `str` on a natural number. -/
def natToChars (n : Nat) : List Char := natToCharsCore (n + 1) n

/-- Python `str` on an integer. -/
def intToChars (n : Int) : List Char :=
  if n < 0 then '-' :: natToChars n.natAbs else natToChars n.toNat

/-- Python `int(s)` on an unsigned digit string; `none` models `ValueError`. -/
def parseNat (cs : List Char) : Option Nat :=
  if cs ≠ [] ∧ cs.all isDigitChar = true then
    some (cs.foldl (fun a c => 10 * a + pyCharDigit c) 0)
  else none

/-- Python `int(s)` on an optionally `-`-signed digit string. -/
def parseInt (cs : List Char) : Option Int :=
  if cs.head? = some '-' then (parseNat cs.tail).map (fun n => -(n : Int))
  else (parseNat cs).map (fun n => (n : Int))

/-- Python `str.split(sep)` for a one-character separator: splits at every
occurrence of `sep`, keeping empty pieces. -/
def splitOnChar (sep : Char) : List Char → List (List Char)
  | [] => [[]]
  | c :: rest =>
    if c = sep then [] :: splitOnChar sep rest
    else
      match splitOnChar sep rest with
      | [] => [[c]]
      | piece :: pieces => (c :: piece) :: pieces

/-! ## `Period` (`src/seedwork/domain/value_objects/period.py`) -/

/-- `Period`: a frozen dataclass with integer `year` and `month` fields. -/
structure Period where
  year : Int
  month : Int
deriving DecidableEq

/-- The `__post_init__` assertions: `1 <= month <= 12` and `year <= 2025`. -/
def Period.validPeriod (p : Period) : Prop :=
  1 ≤ p.month ∧ p.month ≤ 12 ∧ p.year ≤ 2025

instance (p : Period) : Decidable p.validPeriod := by
  unfold Period.validPeriod
  infer_instance

/-- `Period(year=..., month=...)`; `none` models the `__post_init__`
assertions failing. -/
def Period.make (year month : Int) : Option Period :=
  if 1 ≤ month ∧ month ≤ 12 ∧ year ≤ 2025 then some ⟨year, month⟩ else none

/-- `Period.__lt__`, exactly as written in the source:
`self.year < period.year or self.month < period.month`. -/
def Period.lt (p q : Period) : Prop := p.year < q.year ∨ p.month < q.month

instance (p q : Period) : Decidable (Period.lt p q) := by
  unfold Period.lt
  infer_instance

/-- `Period.__gt__`, exactly as written in the source:
`self.year > period.year or self.month > period.month`. -/
def Period.gt (p q : Period) : Prop := p.year > q.year ∨ p.month > q.month

instance (p q : Period) : Decidable (Period.gt p q) := by
  unfold Period.gt
  infer_instance

/-- The ordering the specification describes: compare `year` first, break
ties by `month` (strict lexicographic order on the pair). -/
def Period.specLexLt (p q : Period) : Prop :=
  p.year < q.year ∨ (p.year = q.year ∧ p.month < q.month)

instance (p q : Period) : Decidable (Period.specLexLt p q) := by
  unfold Period.specLexLt
  infer_instance

/-- `Period.representation`: the f-string `f"{self.month:02d}-{self.year}"`;
`format02d` is the `:02d` format spec (zero-pad to two characters). -/
def format02d (n : Int) : List Char :=
  if 0 ≤ n ∧ n < 10 then '0' :: intToChars n else intToChars n

/-- `Period.representation` builds the `"MM-YYYY"` string. -/
def Period.representation (p : Period) : List Char :=
  format02d p.month ++ '-' :: intToChars p.year

/-- `Period.from_str_format`: split on `"-"`, require exactly two pieces
(the tuple unpacking raises otherwise), convert both with `int`, then
construct the `Period` (whose assertions may fail). -/
def Period.from_str_format (s : List Char) : Option Period :=
  match splitOnChar '-' s with
  | [monthStr, yearStr] =>
    match parseInt monthStr, parseInt yearStr with
    | some m, some y => Period.make y m
    | _, _ => none
  | _ => none

/-! ### Digit-printing / parsing lemmas -/

theorem pyCharDigit_pyDigitChar : ∀ d : Nat, d < 10 → pyCharDigit (pyDigitChar d) = d := by
  decide

theorem isDigitChar_pyDigitChar : ∀ d : Nat, d < 10 → isDigitChar (pyDigitChar d) = true := by
  decide

theorem natToCharsCore_spec :
    ∀ fuel n, n < fuel →
      (natToCharsCore fuel n ≠ [] ∧ (natToCharsCore fuel n).all isDigitChar = true) ∧
      ∀ acc, (natToCharsCore fuel n).foldl (fun a c => 10 * a + pyCharDigit c) acc =
        acc * 10 ^ (natToCharsCore fuel n).length + n := by
  intro fuel
  induction fuel with
  | zero => intro n h; exact absurd h (Nat.not_lt_zero n)
  | succ fuel ih =>
    intro n h
    by_cases h10 : n < 10
    · simp only [natToCharsCore, if_pos h10]
      refine ⟨⟨by simp, ?_⟩, ?_⟩
      · simp [isDigitChar_pyDigitChar n h10]
      · intro acc
        simp [pyCharDigit_pyDigitChar n h10]
        ring
    · have hn0 : 0 < n := by omega
      have hdiv : n / 10 < fuel :=
        Nat.lt_of_lt_of_le (Nat.div_lt_self hn0 (by omega)) (Nat.le_of_lt_succ h)
      obtain ⟨⟨hne, hall⟩, hfold⟩ := ih (n / 10) hdiv
      have hmod : n % 10 < 10 := Nat.mod_lt _ (by omega)
      simp only [natToCharsCore, if_neg h10]
      refine ⟨⟨by simp, ?_⟩, ?_⟩
      · rw [List.all_append]
        simp [hall, isDigitChar_pyDigitChar (n % 10) hmod]
      · intro acc
        rw [List.foldl_append, hfold acc]
        simp only [List.foldl, pyCharDigit_pyDigitChar (n % 10) hmod, List.length_append,
          List.length_singleton]
        have hdm : 10 * (n / 10) + n % 10 = n := Nat.div_add_mod n 10
        have hpow : 10 ^ ((natToCharsCore fuel (n / 10)).length + 1) =
            10 ^ (natToCharsCore fuel (n / 10)).length * 10 := pow_succ 10 _
        rw [hpow]
        ring_nf
        omega

theorem natToChars_ne_nil (n : Nat) : natToChars n ≠ [] :=
  ((natToCharsCore_spec (n + 1) n (Nat.lt_succ_self n)).1).1

theorem natToChars_all_digits (n : Nat) : (natToChars n).all isDigitChar = true :=
  ((natToCharsCore_spec (n + 1) n (Nat.lt_succ_self n)).1).2

theorem parseNat_natToChars (n : Nat) : parseNat (natToChars n) = some n := by
  have hfold := (natToCharsCore_spec (n + 1) n (Nat.lt_succ_self n)).2 0
  unfold parseNat
  rw [if_pos ⟨natToChars_ne_nil n, natToChars_all_digits n⟩]
  unfold natToChars
  rw [hfold]
  simp

theorem head_not_dash (cs : List Char) (hall : cs.all isDigitChar = true) :
    cs.head? ≠ some '-' := by
  intro h
  cases cs with
  | nil => simp at h
  | cons c rest =>
    simp only [List.head?_cons, Option.some.injEq] at h
    rw [List.all_cons, h] at hall
    simp at hall
    exact absurd hall.1 (by decide)

theorem intToChars_nonneg (n : Int) (h : 0 ≤ n) : intToChars n = natToChars n.toNat := by
  unfold intToChars
  rw [if_neg (by omega)]

theorem parseInt_intToChars (n : Int) (h : 0 ≤ n) : parseInt (intToChars n) = some n := by
  rw [intToChars_nonneg n h]
  unfold parseInt
  rw [if_neg (head_not_dash _ (natToChars_all_digits n.toNat)), parseNat_natToChars]
  simp [Int.toNat_of_nonneg h]

theorem format02d_all_digits (m : Int) (h1 : 1 ≤ m) :
    (format02d m).all isDigitChar = true := by
  unfold format02d
  by_cases hm : 0 ≤ m ∧ m < 10
  · rw [if_pos hm, intToChars_nonneg m hm.1, List.all_cons, natToChars_all_digits]
    decide
  · rw [if_neg hm, intToChars_nonneg m (by omega)]
    exact natToChars_all_digits _

theorem parseNat_zero_pad (n : Nat) : parseNat ('0' :: natToChars n) = some n := by
  have hcond : ('0' :: natToChars n) ≠ [] ∧ ('0' :: natToChars n).all isDigitChar = true := by
    refine ⟨by simp, ?_⟩
    rw [List.all_cons, natToChars_all_digits]
    decide
  unfold parseNat
  rw [if_pos hcond, List.foldl_cons]
  have h0 : 10 * 0 + pyCharDigit '0' = 0 := by decide
  rw [h0]
  unfold natToChars
  rw [(natToCharsCore_spec (n + 1) n (Nat.lt_succ_self n)).2 0]
  simp

theorem parseInt_format02d (m : Int) (h1 : 1 ≤ m) (h2 : m ≤ 12) :
    parseInt (format02d m) = some m := by
  unfold format02d
  by_cases hm : 0 ≤ m ∧ m < 10
  · rw [if_pos hm, intToChars_nonneg m hm.1]
    unfold parseInt
    rw [if_neg (by simp), parseNat_zero_pad]
    simp [Int.toNat_of_nonneg hm.1]
  · rw [if_neg hm]
    exact parseInt_intToChars m (by omega)

theorem not_dash_of_all_digits (cs : List Char) (hall : cs.all isDigitChar = true) :
    '-' ∉ cs := by
  intro hmem
  rw [List.all_eq_true] at hall
  have := hall _ hmem
  exact absurd this (by decide)

/-! ### `splitOnChar` lemmas -/

theorem splitOnChar_of_not_mem (sep : Char) (cs : List Char) (h : sep ∉ cs) :
    splitOnChar sep cs = [cs] := by
  induction cs with
  | nil => rfl
  | cons c rest ih =>
    have hc : c ≠ sep := fun e => h (e ▸ List.mem_cons_self c rest)
    have hrest : sep ∉ rest := fun m => h (List.mem_cons_of_mem _ m)
    simp only [splitOnChar, if_neg hc, ih hrest]

theorem splitOnChar_append (sep : Char) (a b : List Char) (ha : sep ∉ a) :
    splitOnChar sep (a ++ sep :: b) = a :: splitOnChar sep b := by
  induction a with
  | nil => simp [splitOnChar]
  | cons c a2 ih =>
    have hc : c ≠ sep := fun e => ha (e ▸ List.mem_cons_self c a2)
    have ha2 : sep ∉ a2 := fun m => ha (List.mem_cons_of_mem _ m)
    show splitOnChar sep (c :: (a2 ++ sep :: b)) = (c :: a2) :: splitOnChar sep b
    simp only [splitOnChar, if_neg hc]
    rw [ih ha2]

theorem from_str_format_split (s a b : List Char) (h : splitOnChar '-' s = [a, b]) :
    Period.from_str_format s =
      match parseInt a, parseInt b with
      | some m, some y => Period.make y m
      | _, _ => none := by
  unfold Period.from_str_format
  rw [h]

/-! ### Claims C6 and C7 -/

/-- C6 (evaluation of the code at the failing input): the claim says
`p < q` iff `(p.year, p.month)` lexicographically precedes
`(q.year, q.month)`, and that `p < q` and `p > q` are never both true.
The source's `Period.__lt__` compares `self.year < period.year or
self.month < period.month`, so for `p = Period(2025, 3)` and
`q = Period(2024, 5)` (both validly constructible) `p < q` and `p > q`
are both true while the lexicographic order says `q` precedes `p`. -/
theorem period_lt_gt_not_lexicographic :
    Period.lt ⟨2025, 3⟩ ⟨2024, 5⟩ ∧ Period.gt ⟨2025, 3⟩ ⟨2024, 5⟩ ∧
    ¬ Period.specLexLt ⟨2025, 3⟩ ⟨2024, 5⟩ ∧
    Period.validPeriod ⟨2025, 3⟩ ∧ Period.validPeriod ⟨2024, 5⟩ := by
  decide

/-- C7 (counterexample): `Period(year=-1, month=3)` passes the
`__post_init__` assertions (`month` in 1..12, `year ≤ 2025`), but its
representation is `"03--1"`, which splits on `"-"` into three pieces, so
`from_str_format` raises instead of returning the period: the round-trip
is not the identity on every validly constructed `Period`. -/
theorem period_roundtrip_fails_for_negative_year :
    Period.validPeriod ⟨-1, 3⟩ ∧
    Period.from_str_format (Period.representation ⟨-1, 3⟩) ≠ some ⟨-1, 3⟩ := by
  decide

/-- C7 (amended): construction fails for `month = 13`;
`from_str_format("03-2024")` equals `Period(year=2024, month=3)`; and for
every validly constructed `Period` whose `year` is non-negative, the
round-trip through the `"MM-YYYY"` representation is the identity. -/
theorem period_construction_parse_roundtrip :
    Period.make 2024 13 = none ∧
    Period.from_str_format ("03-2024".toList) = some ⟨2024, 3⟩ ∧
    ∀ p : Period, Period.validPeriod p → 0 ≤ p.year →
      Period.from_str_format (Period.representation p) = some p := by
  refine ⟨by decide, by decide, ?_⟩
  intro p hval hyear
  obtain ⟨h1, h2, h3⟩ := hval
  have hmAll := format02d_all_digits p.month h1
  have hyAll : (intToChars p.year).all isDigitChar = true := by
    rw [intToChars_nonneg p.year hyear]
    exact natToChars_all_digits _
  have hsplit : splitOnChar '-' (Period.representation p) =
      [format02d p.month, intToChars p.year] := by
    unfold Period.representation
    rw [splitOnChar_append '-' _ _ (not_dash_of_all_digits _ hmAll),
      splitOnChar_of_not_mem '-' _ (not_dash_of_all_digits _ hyAll)]
  rw [from_str_format_split _ _ _ hsplit, parseInt_format02d p.month h1 h2,
    parseInt_intToChars p.year hyear]
  show Period.make p.year p.month = some p
  unfold Period.make
  rw [if_pos ⟨h1, h2, h3⟩]

/-- C7 (witness): the round-trip theorem applied at `Period(2024, 3)`. -/
theorem period_construction_parse_roundtrip_witness :
    Period.validPeriod ⟨2024, 3⟩ ∧ (0 : Int) ≤ (2024 : Int) ∧
    Period.from_str_format (Period.representation ⟨2024, 3⟩) = some ⟨2024, 3⟩ :=
  ⟨by decide, by decide,
    period_construction_parse_roundtrip.2.2 ⟨2024, 3⟩ (by decide) (by decide)⟩

/-! ## `Money` (`src/seedwork/domain/value_objects/money.py`)

Amounts are Python floats in the source; they are embedded as `Rat`, on
which every operation the claims exercise (addition, subtraction,
percentage fee on small integral literals) is exact. -/

/-- The `Currency` enum. -/
inductive Currency where
  | USD
  | ARS
deriving DecidableEq

/-- `Money`: a frozen dataclass with an amount and a currency tag
(default currency in the source is `ARS`). -/
structure Money where
  amount : Rat
  currency : Currency
deriving DecidableEq

/-- The `__post_init__` assertion: `amount >= 0`. -/
def Money.validMoney (m : Money) : Prop := 0 ≤ m.amount

instance (m : Money) : Decidable m.validMoney := by
  unfold Money.validMoney
  infer_instance

/-- `Money(amount=..., currency=...)`; `none` models the assertion failing. -/
def Money.make (amount : Rat) (currency : Currency) : Option Money :=
  if 0 ≤ amount then some ⟨amount, currency⟩ else none

/-- `Money.__add__`: `Money(amount=self.amount + other.amount,
currency=self.currency)` — no check on `other.currency`. -/
def Money.add (a b : Money) : Option Money :=
  Money.make (a.amount + b.amount) a.currency

/-- `Money.__sub__`: `Money(amount=self.amount - other.amount,
currency=self.currency)` — no check on `other.currency`. -/
def Money.sub (a b : Money) : Option Money :=
  Money.make (a.amount - b.amount) a.currency

/-- Modelled from the spec: `Fee` (its file `fee.py` is absent from the
sources) carries the percentage `value` read by `Money.calculate_fee`. -/
structure Fee where
  value : Rat

/-- `Money.calculate_fee`: `amount = (self.amount * fee.value) / 100`,
wrapped in a new `Money` with the same currency. -/
def Money.calculate_fee (m : Money) (fee : Fee) : Option Money :=
  Money.make (m.amount * fee.value / 100) m.currency

/-! ### Claims C8 and C10 -/

/-- C8: `Money(amount=-1)` fails construction; `Money(10) + Money(5)` in
the same currency is `Money(15)`; `Money(10).calculate_fee(Fee(10))` is
`Money(1)` — the fee is `value` percent of the amount, in the same
currency. -/
theorem money_concrete_operations :
    Money.make (-1) Currency.ARS = none ∧
    Money.add ⟨10, Currency.ARS⟩ ⟨5, Currency.ARS⟩ = some ⟨15, Currency.ARS⟩ ∧
    Money.calculate_fee ⟨10, Currency.ARS⟩ ⟨10⟩ = some ⟨1, Currency.ARS⟩ := by
  refine ⟨?_, ?_, ?_⟩ <;>
    simp [Money.make, Money.add, Money.calculate_fee] <;> norm_num

/-- C10: `Money.__add__` and `Money.__sub__` perform no currency-mismatch
check: for valid operands, addition always succeeds and subtraction
succeeds exactly when the resulting amount is non-negative, and the result
is tagged with the left operand's currency, the right operand's currency
being ignored. -/
theorem money_add_sub_ignore_currency (a b : Money)
    (ha : a.validMoney) (hb : b.validMoney) :
    Money.add a b = some ⟨a.amount + b.amount, a.currency⟩ ∧
    Money.sub a b =
      (if 0 ≤ a.amount - b.amount then some ⟨a.amount - b.amount, a.currency⟩ else none) := by
  constructor
  · unfold Money.add Money.make
    rw [if_pos (add_nonneg ha hb)]
  · rfl

/-- C10 (witness): mixed-currency addition and an overdrawing
mixed-currency subtraction, via the theorem. -/
theorem money_add_sub_ignore_currency_witness :
    Money.add ⟨10, Currency.USD⟩ ⟨3, Currency.ARS⟩ = some ⟨13, Currency.USD⟩ ∧
    Money.sub ⟨3, Currency.USD⟩ ⟨10, Currency.ARS⟩ = none := by
  have h1 := money_add_sub_ignore_currency ⟨10, Currency.USD⟩ ⟨3, Currency.ARS⟩
    (by norm_num [Money.validMoney]) (by norm_num [Money.validMoney])
  have h2 := money_add_sub_ignore_currency ⟨3, Currency.USD⟩ ⟨10, Currency.ARS⟩
    (by norm_num [Money.validMoney]) (by norm_num [Money.validMoney])
  constructor
  · rw [h1.1]
    norm_num
  · rw [h2.2]
    norm_num

/-! ## Transaction lifecycle (`src/config/container.py`)

The lifecycle hooks act on the scope's SQLAlchemy session and on the
logger; these effects are embedded as an explicit trace.  Uuids are
embedded as naturals, with `uuid.uuid4()` drawing from an indexed source
`gen` at a cursor that advances by one per call; `uuid.UUID(int=0)` is the
sentinel `0`. -/

/-- Observable effects of the lifecycle hooks. -/
inductive TraceEv where
  | sessionCommit
  | sessionRollback
  | sessionClose
  | logDebug (msg : String)
  | logWarning (msg : String)
  | setCorrelationId (u : Nat)
deriving DecidableEq

/-- `uuid.uuid4()`: draw the uuid at the cursor, advance the cursor. -/
def uuid4 (gen : Nat → Nat) (cursor : Nat) : Nat × Nat := (gen cursor, cursor + 1)

/-- The per-scope state relevant to the claims: the `correlation_id`
registered as the scope's dependency in the `TransactionContainer`, and
the value set on `logger.correlation_id`.  (The session, repositories and
remaining container wiring carry no information for the claims.) -/
structure TransactionScope where
  correlation_id : Nat
  logger_correlation_id : Nat
deriving DecidableEq

/-- `on_create_transaction_context`: `correlation_id = uuid.uuid4()` is
stored in the container, and the logger's correlation id is set with a
second, separate `uuid.uuid4()` call. -/
def on_create_transaction_context (gen : Nat → Nat) (cursor : Nat) :
    TransactionScope × Nat :=
  let a := uuid4 gen cursor
  let b := uuid4 gen a.2
  (⟨a.1, b.1⟩, b.2)

/-- `on_exit_transaction_context`: with an exception, roll back and log a
warning; otherwise commit and log; then close the session, log, and reset
the logger's correlation id to `uuid.UUID(int=0)`.  The second component
is the exception the hook re-raises: the `raise exception` block is
commented out in the source, so it is always `none`. -/
def on_exit_transaction_context (exception : Option String) :
    List TraceEv × Option String :=
  ((match exception with
    | some e => [TraceEv.sessionRollback, TraceEv.logWarning (("rollback due to ") ++ e)]
    | none => [TraceEv.sessionCommit, TraceEv.logDebug ("committed")]) ++
    [TraceEv.sessionClose, TraceEv.logDebug ("transaction ended"),
      TraceEv.setCorrelationId 0],
   none)

/-- Modelled from the spec: the lato unit-of-work boundary (the library
driving the hooks is not part of the sources) runs the handler and then
invokes `on_exit_transaction_context` with the handler's exception, if
any; since the hook raises nothing, the boundary propagates nothing. -/
def unit_of_work (handler : Except String Unit) : List TraceEv × Option String :=
  on_exit_transaction_context
    (match handler with
     | .ok _ => none
     | .error e => some e)

/-! ### Claims C1 and C9 -/

/-- C1: a unit of work whose handler completes commits exactly once and
never rolls back; one whose handler raises rolls back exactly once and
never commits; in both cases the session is closed exactly once and the
error is not re-raised past the boundary. -/
theorem unit_of_work_session_discipline (handler : Except String Unit) :
    (unit_of_work handler).1.count TraceEv.sessionCommit =
      (if handler.isOk then 1 else 0) ∧
    (unit_of_work handler).1.count TraceEv.sessionRollback =
      (if handler.isOk then 0 else 1) ∧
    (unit_of_work handler).1.count TraceEv.sessionClose = 1 ∧
    (unit_of_work handler).2 = none := by
  cases handler <;>
    simp [unit_of_work, on_exit_transaction_context, Except.isOk, Except.toBool,
      List.count_cons, List.count_nil, List.count_append]

/-- C9 (evaluation of the code at the failing input): the claim says the
correlation id registered as the scope's dependency is the same value the
logger carries.  `on_create_transaction_context` draws two distinct
`uuid.uuid4()` values — here the draws at cursors 0 and 1 of the identity
source — so the two ids differ; the reset of the logger's id to the
sentinel `0` at scope close does hold. -/
theorem correlation_id_diverges_from_logger :
    (on_create_transaction_context id 0).1.correlation_id ≠
      (on_create_transaction_context id 0).1.logger_correlation_id ∧
    TraceEv.setCorrelationId 0 ∈ (on_exit_transaction_context none).1 := by
  decide

/-! ## `event_collector_middleware` (`src/config/container.py`)

Handler keyword arguments are embedded as a list: a `repo` argument is an
object exposing `collect_events` with a buffer of domain events (events
are embedded as naturals), a `plain` argument is anything else. -/

/-- A value of `call_next.keywords`. -/
inductive HandlerArg where
  | repo (events : List Nat)
  | plain
deriving DecidableEq

/-- `hasattr(x, "collect_events")`. -/
def hasCollectEvents : HandlerArg → Bool
  | .repo _ => true
  | .plain => false

/-- Modelled from the spec: concrete repositories (infrastructure layer,
absent from the sources) buffer domain events; `collect_events` returns
the buffered events and empties the buffer.  On a non-repository the pair
is never used (the middleware filters on `hasattr` first). -/
def collectEventsCall : HandlerArg → List Nat × HandlerArg
  | .repo evs => (evs, .repo [])
  | .plain => ([], .plain)

/-- The event buffer an argument currently holds. -/
def bufferOf : HandlerArg → List Nat
  | .repo evs => evs
  | .plain => []

/-- The middleware's collection pass over `handler_kwargs.values()`,
starting at position `i`: extend `domain_events` with each
`collect_events` result, skipping arguments without the capability.
Returns the events in repository-then-emission order, the positions
queried in order, and the post-state of the arguments. -/
def collectFrom (i : Nat) : List HandlerArg → List Nat × List Nat × List HandlerArg
  | [] => ([], [], [])
  | a :: rest =>
    if hasCollectEvents a then
      let ra := collectEventsCall a
      let rr := collectFrom (i + 1) rest
      (ra.1 ++ rr.1, i :: rr.2.1, ra.2 :: rr.2.2)
    else
      let rr := collectFrom (i + 1) rest
      (rr.1, rr.2.1, a :: rr.2.2)

/-- Result of one middleware run: post-state of the handler arguments,
positions queried via `collect_events`, events published via
`publish_async` (in publication order), and the propagated result. -/
structure MiddlewareRun where
  args : List HandlerArg
  collected : List Nat
  published : List Nat
  result : Except String Unit

/-- `event_collector_middleware`: awaiting `call_next()` first, a raising
handler propagates before any collection; on success every
`collect_events`-capable keyword argument is drained in iteration order
and each collected event is published individually via
`ctx.publish_async`. -/
def event_collector_middleware (kwargs : List HandlerArg)
    (handler : Except String Unit) : MiddlewareRun :=
  match handler with
  | .error e => ⟨kwargs, [], [], .error e⟩
  | .ok r =>
    let c := collectFrom 0 kwargs
    ⟨c.2.2, c.2.1, c.1, .ok r⟩

/-! ### `collectFrom` lemmas -/

theorem collectFrom_published (i : Nat) (l : List HandlerArg) :
    (collectFrom i l).1 = ((l.filter hasCollectEvents).map bufferOf).flatten := by
  induction l generalizing i with
  | nil => rfl
  | cons a rest ih =>
    cases a with
    | repo evs =>
      simp only [collectFrom, hasCollectEvents, if_pos]
      simp [List.filter_cons, hasCollectEvents, bufferOf, collectEventsCall, ih (i + 1)]
    | plain =>
      simp only [collectFrom, hasCollectEvents]
      simp [List.filter_cons, hasCollectEvents, ih (i + 1)]

theorem collectFrom_collected (i : Nat) (l : List HandlerArg) :
    (collectFrom i l).2.1 =
      ((List.enumFrom i l).filter (fun p => hasCollectEvents p.2)).map Prod.fst := by
  induction l generalizing i with
  | nil => rfl
  | cons a rest ih =>
    cases a with
    | repo evs =>
      simp only [collectFrom, hasCollectEvents, if_pos]
      simp [List.enumFrom, List.filter_cons, hasCollectEvents, ih (i + 1)]
    | plain =>
      simp only [collectFrom, hasCollectEvents]
      simp [List.enumFrom, List.filter_cons, hasCollectEvents, ih (i + 1)]

theorem collectFrom_collected_ge (i : Nat) (l : List HandlerArg) :
    ∀ j ∈ (collectFrom i l).2.1, i ≤ j := by
  induction l generalizing i with
  | nil => intro j hj; simp [collectFrom] at hj
  | cons a rest ih =>
    intro j hj
    cases a with
    | repo evs =>
      simp only [collectFrom, hasCollectEvents, if_pos, List.mem_cons] at hj
      rcases hj with rfl | hj
      · exact Nat.le_refl j
      · exact Nat.le_of_succ_le (ih (i + 1) j hj)
    | plain =>
      simp only [collectFrom, hasCollectEvents, if_neg] at hj
      exact Nat.le_of_succ_le (ih (i + 1) j hj)

theorem collectFrom_collected_nodup (i : Nat) (l : List HandlerArg) :
    (collectFrom i l).2.1.Nodup := by
  induction l generalizing i with
  | nil => exact List.nodup_nil
  | cons a rest ih =>
    cases a with
    | repo evs =>
      simp only [collectFrom, hasCollectEvents, if_pos]
      refine List.nodup_cons.mpr ⟨?_, ih (i + 1)⟩
      intro hmem
      have := collectFrom_collected_ge (i + 1) rest i hmem
      omega
    | plain =>
      simp only [collectFrom, hasCollectEvents]
      exact ih (i + 1)

theorem collectFrom_args (i : Nat) (l : List HandlerArg) :
    (collectFrom i l).2.2 = l.map (fun a => (collectEventsCall a).2) := by
  induction l generalizing i with
  | nil => rfl
  | cons a rest ih =>
    cases a with
    | repo evs =>
      simp only [collectFrom, hasCollectEvents, if_pos]
      simp [collectEventsCall, ih (i + 1)]
    | plain =>
      simp only [collectFrom, hasCollectEvents]
      simp [collectEventsCall, ih (i + 1)]

/-! ### Claim C2 -/

/-- C2: on a successful handler, every `collect_events`-capable keyword
argument is queried exactly once (the queried positions are exactly the
capable positions, each once); all their events are published, each
exactly once, in repository iteration order then emission order; every
buffer is empty afterwards; and on a raising handler no collection or
publication happens. -/
theorem event_collector_exactly_once (kwargs : List HandlerArg)
    (handler : Except String Unit) :
    (event_collector_middleware kwargs handler).published =
      (if handler.isOk then ((kwargs.filter hasCollectEvents).map bufferOf).flatten
       else []) ∧
    (event_collector_middleware kwargs handler).collected =
      (if handler.isOk then
        ((List.enumFrom 0 kwargs).filter (fun p => hasCollectEvents p.2)).map Prod.fst
       else []) ∧
    (event_collector_middleware kwargs handler).collected.Nodup ∧
    (event_collector_middleware kwargs handler).args =
      (if handler.isOk then kwargs.map (fun a => (collectEventsCall a).2) else kwargs) ∧
    (handler.isOk = true →
      ∀ a ∈ (event_collector_middleware kwargs handler).args, bufferOf a = []) := by
  cases handler with
  | error e =>
    refine ⟨by simp [event_collector_middleware, Except.isOk, Except.toBool],
      by simp [event_collector_middleware, Except.isOk, Except.toBool],
      by simp [event_collector_middleware],
      by simp [event_collector_middleware, Except.isOk, Except.toBool],
      ?_⟩
    intro h
    simp [Except.isOk, Except.toBool] at h
  | ok r =>
    refine ⟨?_, ?_, ?_, ?_, ?_⟩
    · simp [event_collector_middleware, Except.isOk, Except.toBool,
        collectFrom_published]
    · simp [event_collector_middleware, Except.isOk, Except.toBool,
        collectFrom_collected]
    · simpa [event_collector_middleware] using collectFrom_collected_nodup 0 kwargs
    · simp [event_collector_middleware, Except.isOk, Except.toBool, collectFrom_args]
    · intro _ a ha
      simp only [event_collector_middleware, collectFrom_args] at ha
      rw [List.mem_map] at ha
      obtain ⟨b, _, rfl⟩ := ha
      cases b <;> rfl

/-- C2 (witness): the theorem applied to two repositories and a plain
argument with a successful handler. -/
theorem event_collector_exactly_once_witness :
    (event_collector_middleware
        [HandlerArg.repo [1, 2], HandlerArg.plain, HandlerArg.repo [3]]
        (Except.ok ())).published = [1, 2, 3] ∧
    bufferOf (HandlerArg.repo []) = [] := by
  have h := event_collector_exactly_once
    [HandlerArg.repo [1, 2], HandlerArg.plain, HandlerArg.repo [3]] (Except.ok ())
  constructor
  · rw [h.1]
    decide
  · exact h.2.2.2.2 (by decide) (HandlerArg.repo []) (by decide)

/-! ## `ContainerProvider` (`src/config/container.py`)

The `dependency_injector` container is embedded as a named member list of
providers plus the set of names its attribute assignment refuses.  Python
types are opaque, embedded as naturals, with `issubclass` an abstract
boolean relation `issub`; provider instances are likewise naturals. -/

/-- The provider shapes `resolve_provider_by_type` distinguishes:
`Factory`/`Singleton` (declared class), `Dependency` (declared
`instance_of`) and `Object` (a registered instance, never matched by
type). -/
inductive PyProvider where
  | factory (cls : Nat) (obj : Nat)
  | singleton (cls : Nat) (obj : Nat)
  | dependency (declared : Nat) (obj : Nat)
  | object_ (obj : Nat)
deriving DecidableEq

/-- Calling `provider()`: the instance it yields (construction effects of
factories are irrelevant to the claims). -/
def PyProvider.call : PyProvider → Nat
  | .factory _ o => o
  | .singleton _ o => o
  | .dependency _ o => o
  | .object_ o => o

/-- The container object: its provider members (each attribute seen by
`inspect.getmembers` / `getattr` / `setattr`), and the names on which the
third-party container's attribute assignment raises `TypeError`
(modelled from the spec: reserved or colliding keys). -/
structure PyContainer where
  members : List (String × PyProvider)
  reserved : List String
deriving DecidableEq

/-- Identifiers handed to the provider: strings or types. -/
inductive Ident where
  | str (s : String)
  | type (t : Nat)
deriving DecidableEq

/-- Python `str(identifier)` (the exact class-name rendering is opaque). -/
def pyStr : Ident → String
  | .str s => s
  | .type t => ("<class ") ++ toString t ++ (">")

/-- `getattr(container, name)` restricted to provider members. -/
def getattrContainer (c : PyContainer) (name : String) : Option PyProvider :=
  (c.members.find? (fun kv => kv.1 = name)).map Prod.snd

/-- Overwrite-or-append of a member binding, mirroring attribute
assignment on the container's attribute dictionary. -/
def setMember : List (String × PyProvider) → String → PyProvider → List (String × PyProvider)
  | [], n, pr => [(n, pr)]
  | (m, q) :: rest, n, pr =>
    if m = n then (n, pr) :: rest else (m, q) :: setMember rest n pr

/-- `setattr(container, identifier, provider)`: raises `TypeError` on a
non-string identifier (attribute names must be strings) or on a
reserved/colliding name. -/
def setattrContainer (c : PyContainer) (identifier : Ident) (pr : PyProvider) :
    Except Unit PyContainer :=
  match identifier with
  | .type _ => .error ()
  | .str s =>
    if s ∈ c.reserved then .error ()
    else .ok ⟨setMember c.members s pr, c.reserved⟩

/-- `inspect_provider` (the predicate local to `resolve_provider_by_type`):
a member matches when it is a `Factory`/`Singleton` whose `cls`, or a
`Dependency` whose `instance_of`, is a subclass of the requested type. -/
def inspect_provider (issub : Nat → Nat → Bool) (cls : Nat) : PyProvider → Bool
  | .factory c _ => issub c cls
  | .singleton c _ => issub c cls
  | .dependency c _ => issub c cls
  | .object_ _ => false

/-- `resolve_provider_by_type`: collect the matching members; `None` when
none match, the unique match when one does, `ValueError` when several do.
(`inspect.getmembers` sorts members by name; only the count matters here.) -/
def resolve_provider_by_type (issub : Nat → Nat → Bool) (c : PyContainer) (cls : Nat) :
    Except Unit (Option PyProvider) :=
  match (c.members.map Prod.snd).filter (inspect_provider issub cls) with
  | [] => .ok none
  | [p] => .ok (some p)
  | _ :: _ :: _ => .error ()

/-- The Python exceptions `get_dependency` can propagate. -/
inductive PyErr where
  | valueError
  | typeError
  | attributeError
deriving DecidableEq

/-- The state of a `ContainerProvider`: its container and the collision
counter (initialised to 0 in `__init__`). -/
structure ContainerProvider where
  container : PyContainer
  counter : Nat
deriving DecidableEq

/-- The body shared by `register_dependency` on a provider value and on a
heap cell: wrap the instance in `providers.Object`, try `setattr` under
the identifier, and on `TypeError` fall back to the derived key
`f"{str(identifier)}-{self.counter}"`, bumping the counter.  A failure of
the fallback `setattr` itself propagates. -/
def registerCore (c : PyContainer) (counter : Nat) (identifier : Ident) (inst : Nat) :
    Except Unit (PyContainer × Nat) :=
  match setattrContainer c identifier (PyProvider.object_ inst) with
  | .ok c2 => .ok (c2, counter)
  | .error _ =>
    match setattrContainer c (.str (pyStr identifier ++ ("-") ++ toString counter))
        (PyProvider.object_ inst) with
    | .ok c2 => .ok (c2, counter + 1)
    | .error e => .error e

/-- `ContainerProvider.register_dependency`. -/
def ContainerProvider.register_dependency (cp : ContainerProvider)
    (identifier : Ident) (inst : Nat) : Except Unit ContainerProvider :=
  (registerCore cp.container cp.counter identifier inst).map fun r => ⟨r.1, r.2⟩

/-- `ContainerProvider.get_dependency`: type identifiers go through
`resolve_provider_by_type` (calling the `None` result raises `TypeError`,
and the `ValueError` of an ambiguous lookup propagates); string
identifiers go through `getattr` (an unbound name raises
`AttributeError`); the resolved provider is then called. -/
def ContainerProvider.get_dependency (issub : Nat → Nat → Bool)
    (cp : ContainerProvider) (identifier : Ident) : Except PyErr Nat :=
  match identifier with
  | .type t =>
    match resolve_provider_by_type issub cp.container t with
    | .error _ => .error .valueError
    | .ok none => .error .typeError
    | .ok (some p) => .ok p.call
  | .str s =>
    match getattrContainer cp.container s with
    | none => .error .attributeError
    | some p => .ok p.call

/-! ### `setMember` lemmas -/

theorem setMember_find_self (l : List (String × PyProvider)) (n : String) (pr : PyProvider) :
    (setMember l n pr).find? (fun kv => kv.1 = n) = some (n, pr) := by
  induction l with
  | nil => simp [setMember, List.find?]
  | cons kv rest ih =>
    by_cases h : kv.1 = n
    · simp [setMember, h, List.find?]
    · simp only [setMember]
      rw [if_neg h]
      simp only [List.find?]
      rw [decide_eq_false h]
      exact ih

theorem setMember_find_other (l : List (String × PyProvider)) (n n2 : String)
    (pr : PyProvider) (h : n2 ≠ n) :
    (setMember l n pr).find? (fun kv => kv.1 = n2) = l.find? (fun kv => kv.1 = n2) := by
  induction l with
  | nil =>
    have h1 : ¬((n, pr).1 = n2) := fun e => h (Eq.symm e)
    simp [setMember, List.find?, h1]
  | cons kv rest ih =>
    by_cases hk : kv.1 = n
    · have h1 : ¬((n, pr).1 = n2) := fun e => h (Eq.symm e)
      have h2 : ¬(kv.1 = n2) := fun e => h (Eq.symm (Eq.trans (Eq.symm hk) e))
      simp [setMember, hk, List.find?, h1, h2, ih]
    · have hset : setMember (kv :: rest) n pr = kv :: setMember rest n pr := by
        simp [setMember, hk]
      rw [hset]
      cases hd : decide (kv.1 = n2) <;> simp [List.find?, hd, ih]

/-! ### Unfolding equations for the provider operations -/

theorem get_dependency_type_eq (issub : Nat → Nat → Bool) (cp : ContainerProvider) (t : Nat) :
    ContainerProvider.get_dependency issub cp (.type t) =
      match resolve_provider_by_type issub cp.container t with
      | .error _ => .error .valueError
      | .ok none => .error .typeError
      | .ok (some p) => .ok p.call := rfl

theorem get_dependency_str_eq (issub : Nat → Nat → Bool) (cp : ContainerProvider) (s : String) :
    ContainerProvider.get_dependency issub cp (.str s) =
      match getattrContainer cp.container s with
      | none => .error .attributeError
      | some p => .ok p.call := rfl

theorem setattr_str_eq (c : PyContainer) (s : String) (pr : PyProvider) :
    setattrContainer c (.str s) pr =
      if s ∈ c.reserved then .error ()
      else .ok ⟨setMember c.members s pr, c.reserved⟩ := rfl

/-! ### Claims C3 and C4 -/

/-- C3: in a type-based lookup, exactly one matching binding means
`get_dependency` returns that binding's instance; zero matches raise
(`provider()` on `None` is a `TypeError`) and two or more matches raise
the `ValueError` of `resolve_provider_by_type` — never a silent pick or a
placeholder. -/
theorem get_dependency_type_resolution (issub : Nat → Nat → Bool)
    (cp : ContainerProvider) (t : Nat) :
    (∀ p, (cp.container.members.map Prod.snd).filter (inspect_provider issub t) = [p] →
      ContainerProvider.get_dependency issub cp (.type t) = .ok p.call) ∧
    ((cp.container.members.map Prod.snd).filter (inspect_provider issub t) = [] →
      ContainerProvider.get_dependency issub cp (.type t) = .error .typeError) ∧
    (2 ≤ ((cp.container.members.map Prod.snd).filter (inspect_provider issub t)).length →
      ContainerProvider.get_dependency issub cp (.type t) = .error .valueError) := by
  refine ⟨?_, ?_, ?_⟩
  · intro p hp
    have hres : resolve_provider_by_type issub cp.container t = .ok (some p) := by
      unfold resolve_provider_by_type
      rw [hp]
    rw [get_dependency_type_eq, hres]
  · intro hp
    have hres : resolve_provider_by_type issub cp.container t = .ok none := by
      unfold resolve_provider_by_type
      rw [hp]
    rw [get_dependency_type_eq, hres]
  · intro hlen
    match hm : (cp.container.members.map Prod.snd).filter (inspect_provider issub t) with
    | [] => rw [hm] at hlen; simp at hlen
    | [p] => rw [hm] at hlen; simp at hlen
    | p :: q :: rest =>
      have hres : resolve_provider_by_type issub cp.container t = .error () := by
        unfold resolve_provider_by_type
        rw [hm]
      rw [get_dependency_type_eq, hres]

/-- C3 (witness): a container with a single `Factory` binding whose class
matches the request resolves to that factory's instance. -/
theorem get_dependency_type_resolution_witness :
    ContainerProvider.get_dependency (fun a b => a == b)
      ⟨⟨[(("strategy_repository"), PyProvider.factory 5 42)], []⟩, 0⟩ (.type 5) =
      .ok 42 := by
  have h := (get_dependency_type_resolution (fun a b => a == b)
    ⟨⟨[(("strategy_repository"), PyProvider.factory 5 42)], []⟩, 0⟩ 5).1
    (PyProvider.factory 5 42) (by decide)
  exact h

/-- C4: registering under a directly usable string identifier makes
`get_dependency` return exactly that (most recently registered) instance;
when the identifier cannot be used as a storage key (`setattr` raises),
the instance is stored under the derived key
`f"{str(identifier)}-{counter}"`, the counter is bumped, and every other
binding — in particular the pre-existing one under the original
identifier — is left untouched. -/
theorem register_dependency_retrieval (issub : Nat → Nat → Bool)
    (cp : ContainerProvider) (identifier : Ident) (s : String) (inst : Nat) :
    (s ∉ cp.container.reserved →
      ∃ cp2, ContainerProvider.register_dependency cp (.str s) inst = .ok cp2 ∧
        ContainerProvider.get_dependency issub cp2 (.str s) = .ok inst) ∧
    (setattrContainer cp.container identifier (PyProvider.object_ inst) = .error () →
      (pyStr identifier ++ ("-") ++ toString cp.counter) ∉ cp.container.reserved →
      ∃ cp2, ContainerProvider.register_dependency cp identifier inst = .ok cp2 ∧
        cp2.counter = cp.counter + 1 ∧
        getattrContainer cp2.container (pyStr identifier ++ ("-") ++ toString cp.counter) =
          some (PyProvider.object_ inst) ∧
        ∀ n, n ≠ pyStr identifier ++ ("-") ++ toString cp.counter →
          getattrContainer cp2.container n = getattrContainer cp.container n) := by
  constructor
  · intro hres
    refine ⟨⟨⟨setMember cp.container.members s (PyProvider.object_ inst),
      cp.container.reserved⟩, cp.counter⟩, ?_, ?_⟩
    · have hset : setattrContainer cp.container (.str s) (PyProvider.object_ inst) =
          .ok ⟨setMember cp.container.members s (PyProvider.object_ inst),
            cp.container.reserved⟩ := by
        rw [setattr_str_eq, if_neg hres]
      unfold ContainerProvider.register_dependency registerCore
      rw [hset]
      rfl
    · rw [get_dependency_str_eq]
      have hget : getattrContainer
          (⟨setMember cp.container.members s (PyProvider.object_ inst),
            cp.container.reserved⟩ : PyContainer) s =
          some (PyProvider.object_ inst) := by
        show (List.find? (fun kv => kv.1 = s)
          (setMember cp.container.members s (PyProvider.object_ inst))).map Prod.snd =
          some (PyProvider.object_ inst)
        rw [setMember_find_self]
        rfl
      rw [hget]
      rfl
  · intro herr hkey
    refine ⟨⟨⟨setMember cp.container.members
        (pyStr identifier ++ ("-") ++ toString cp.counter) (PyProvider.object_ inst),
      cp.container.reserved⟩, cp.counter + 1⟩, ?_, rfl, ?_, ?_⟩
    · have hset : setattrContainer cp.container
          (.str (pyStr identifier ++ ("-") ++ toString cp.counter))
          (PyProvider.object_ inst) =
          .ok ⟨setMember cp.container.members
              (pyStr identifier ++ ("-") ++ toString cp.counter) (PyProvider.object_ inst),
            cp.container.reserved⟩ := by
        rw [setattr_str_eq, if_neg hkey]
      unfold ContainerProvider.register_dependency registerCore
      rw [herr, hset]
      rfl
    · show (List.find? (fun kv => kv.1 = pyStr identifier ++ ("-") ++ toString cp.counter)
        (setMember cp.container.members
          (pyStr identifier ++ ("-") ++ toString cp.counter)
          (PyProvider.object_ inst))).map Prod.snd =
        some (PyProvider.object_ inst)
      rw [setMember_find_self]
      rfl
    · intro n hn
      show (List.find? (fun kv => kv.1 = n)
        (setMember cp.container.members
          (pyStr identifier ++ ("-") ++ toString cp.counter)
          (PyProvider.object_ inst))).map Prod.snd =
        getattrContainer cp.container n
      rw [setMember_find_other _ _ _ _ hn]
      rfl

/-- C4 (witness): the theorem applied to a container whose `"db_session"`
name is reserved and already bound: the new instance lands under
`"db_session-0"`, the old binding is still retrievable, the counter is
bumped. -/
theorem register_dependency_retrieval_witness :
    ∃ cp2, ContainerProvider.register_dependency
        ⟨⟨[(("db_session"), PyProvider.object_ 7)], [("db_session")]⟩, 0⟩
        (.str ("db_session")) 9 = .ok cp2 ∧
      cp2.counter = 0 + 1 ∧
      getattrContainer cp2.container (pyStr (.str ("db_session")) ++ ("-") ++ toString 0) =
        some (PyProvider.object_ 9) ∧
      ∀ n, n ≠ pyStr (.str ("db_session")) ++ ("-") ++ toString 0 →
        getattrContainer cp2.container n =
          getattrContainer ⟨[(("db_session"), PyProvider.object_ 7)], [("db_session")]⟩ n :=
  (register_dependency_retrieval (fun a b => a == b)
    ⟨⟨[(("db_session"), PyProvider.object_ 7)], [("db_session")]⟩, 0⟩
    (.str ("db_session")) ("db_session") 9).2 (by rfl) (by decide)

/-! ### Claim C5: `ContainerProvider.copy`

Aliasing matters for the frame claim, so container objects live on an
explicit heap (a list of containers addressed by position) and a provider
holds a reference.  `copy.copy(self.container)` is a shallow structural
copy of the container object — modelled from the spec as allocating a
fresh cell holding the same member list (provider objects are shared but
never mutated; registration assigns new attributes). -/

/-- The heap of container objects. -/
abbrev World : Type := List PyContainer

/-- A `ContainerProvider` whose container is the heap cell at `ref`. -/
structure CPRef where
  ref : Nat
  counter : Nat

/-- Dereference a container cell. -/
def readContainer (w : World) (r : Nat) : PyContainer := w.getD r ⟨[], []⟩

/-- Overwrite a container cell. -/
def writeContainer (w : World) (r : Nat) (c : PyContainer) : World := w.set r c

/-- `register_dependency` acting on the provider's heap cell. -/
def register_dependency_ref (w : World) (cp : CPRef) (identifier : Ident) (inst : Nat) :
    Except Unit (World × CPRef) :=
  (registerCore (readContainer w cp.ref) cp.counter identifier inst).map
    fun r => (writeContainer w cp.ref r.1, ⟨cp.ref, r.2⟩)

/-- `get_dependency` through the provider's heap cell. -/
def get_dependency_ref (issub : Nat → Nat → Bool) (w : World) (cp : CPRef)
    (identifier : Ident) : Except PyErr Nat :=
  ContainerProvider.get_dependency issub ⟨readContainer w cp.ref, cp.counter⟩ identifier

/-- A sequence of `register_dependency` calls on one provider; a raised
registration error aborts the rest (already-performed writes persist). -/
def register_many (w : World) (cp : CPRef) : List (Ident × Nat) → World × CPRef
  | [] => (w, cp)
  | (identifier, inst) :: rest =>
    match register_dependency_ref w cp identifier inst with
    | .ok r => register_many r.1 r.2 rest
    | .error _ => (w, cp)

/-- `ContainerProvider.copy`: allocate a shallow copy of the container as
a fresh cell, wrap it in a new provider (`__init__` resets the counter to
0), and `update(*args, **kwargs)` registers the extra bindings on it. -/
def copy_ref (w : World) (cp : CPRef) (extra : List (Ident × Nat)) : World × CPRef :=
  register_many (w ++ [readContainer w cp.ref]) ⟨w.length, 0⟩ extra

/-! #### Frame lemmas for the heap operations -/

theorem writeContainer_read_other (w : World) (r i : Nat) (c : PyContainer) (h : i ≠ r) :
    readContainer (writeContainer w r c) i = readContainer w i := by
  unfold readContainer writeContainer
  rw [List.getD_eq_getElem?_getD, List.getD_eq_getElem?_getD,
    List.getElem?_set_ne (fun e => h (Eq.symm e))]

theorem writeContainer_length (w : World) (r : Nat) (c : PyContainer) :
    (writeContainer w r c).length = w.length := List.length_set w r c

theorem register_dependency_ref_frame (w : World) (cp : CPRef) (identifier : Ident)
    (inst : Nat) (r : World × CPRef)
    (h : register_dependency_ref w cp identifier inst = .ok r) :
    r.2.ref = cp.ref ∧ r.1.length = w.length ∧
    ∀ i, i ≠ cp.ref → readContainer r.1 i = readContainer w i := by
  unfold register_dependency_ref at h
  cases hc : registerCore (readContainer w cp.ref) cp.counter identifier inst with
  | error e => rw [hc] at h; exact absurd h (by simp [Except.map])
  | ok pr =>
    rw [hc] at h
    simp only [Except.map, Except.ok.injEq] at h
    subst h
    refine ⟨rfl, writeContainer_length w cp.ref pr.1, ?_⟩
    intro i hi
    exact writeContainer_read_other w cp.ref i pr.1 hi

theorem register_many_frame (regs : List (Ident × Nat)) :
    ∀ (w : World) (cp : CPRef),
      ((register_many w cp regs).2.ref = cp.ref ∧
        (register_many w cp regs).1.length = w.length) ∧
      ∀ i, i ≠ cp.ref →
        readContainer (register_many w cp regs).1 i = readContainer w i := by
  induction regs with
  | nil => intro w cp; exact ⟨⟨rfl, rfl⟩, fun i _ => rfl⟩
  | cons reg rest ih =>
    intro w cp
    show ((register_many w cp (reg :: rest)).2.ref = cp.ref ∧ _) ∧ _
    unfold register_many
    cases hr : register_dependency_ref w cp reg.1 reg.2 with
    | error e => exact ⟨⟨rfl, rfl⟩, fun i _ => rfl⟩
    | ok r =>
      obtain ⟨href, hlen, hread⟩ := register_dependency_ref_frame w cp reg.1 reg.2 r hr
      obtain ⟨⟨ihref, ihlen⟩, ihread⟩ := ih r.1 r.2
      refine ⟨⟨by rw [ihref, href], by rw [ihlen, hlen]⟩, ?_⟩
      intro i hi
      rw [ihread i (fun e => hi (e.trans href)), hread i hi]

/-- C5: deriving a provider with `copy` (including its `update` of extra
bindings) and then performing any sequence of registrations on the derived
provider never changes what the original provider resolves, for any
identifier. -/
theorem copy_does_not_affect_original (issub : Nat → Nat → Bool) (w : World)
    (cp : CPRef) (extra regs : List (Ident × Nat)) (identifier : Ident)
    (h : cp.ref < w.length) :
    get_dependency_ref issub
      (register_many (copy_ref w cp extra).1 (copy_ref w cp extra).2 regs).1
      cp identifier =
    get_dependency_ref issub w cp identifier := by
  have hne : cp.ref ≠ w.length := Nat.ne_of_lt h
  obtain ⟨⟨cref, _⟩, cread⟩ := register_many_frame extra (w ++ [readContainer w cp.ref])
    ⟨w.length, 0⟩
  obtain ⟨⟨_, _⟩, rread⟩ := register_many_frame regs (copy_ref w cp extra).1
    (copy_ref w cp extra).2
  have hcopy : readContainer (copy_ref w cp extra).1 cp.ref = readContainer w cp.ref := by
    unfold copy_ref
    rw [cread cp.ref hne]
    unfold readContainer
    rw [List.getD_eq_getElem?_getD, List.getD_eq_getElem?_getD,
      List.getElem?_append_left h]
  have hfinal : readContainer
      (register_many (copy_ref w cp extra).1 (copy_ref w cp extra).2 regs).1 cp.ref =
      readContainer w cp.ref := by
    rw [rread cp.ref ?_, hcopy]
    show cp.ref ≠ (copy_ref w cp extra).2.ref
    unfold copy_ref
    rw [cref]
    exact hne
  unfold get_dependency_ref
  rw [hfinal]

/-- C5 (witness): a one-cell heap; after deriving a copy with an extra
binding and re-registering on the copy, the original still resolves the
old instance. -/
theorem copy_does_not_affect_original_witness :
    get_dependency_ref (fun a b => a == b)
      (register_many
        (copy_ref [⟨[(("x"), PyProvider.object_ 1)], []⟩] ⟨0, 0⟩ [(.str ("x"), 2)]).1
        (copy_ref [⟨[(("x"), PyProvider.object_ 1)], []⟩] ⟨0, 0⟩ [(.str ("x"), 2)]).2
        [(.str ("x"), 3)]).1
      ⟨0, 0⟩ (.str ("x")) = .ok 1 := by
  rw [copy_does_not_affect_original (fun a b => a == b)
    [⟨[(("x"), PyProvider.object_ 1)], []⟩] ⟨0, 0⟩ [(.str ("x"), 2)] [(.str ("x"), 3)]
    (.str ("x")) (by decide)]
  rfl

end RealStateManager
